import Mathlib

/-!
Shallow embedding of the `BinaryManagerV2` crate (src/lib.rs and
src/memory/memory.rs): a binary primitive encoder/decoder over an in-memory
byte buffer with explicit endianness control.

Modelling conventions:
* bytes are `Nat` values (the meaningful range is `< 256`; the stream code
  never computes on byte values, it only moves them, so no range invariant is
  needed);
* a Rust slice/Vec of bytes is a `List Nat`;
* a Rust panic (e.g. `clone_from_slice` on mismatched lengths) is `Option`
  with `none` for the panic;
* fallible operations return `Except BinaryError`;
* `f32`/`f64` values are represented by their IEEE-754 bit patterns as `Nat`
  (the crate's float codecs only move the raw `to_le_bytes`/`from_le_bytes`
  bytes, so the byte-level behaviour is exactly that of `u32`/`u64`);
* `char` is represented by its Unicode scalar value as `Nat`;
* `usize`/`isize` are modelled at the default (non-`wasm32`) width of
  8 bytes.
-/

namespace BinaryManager

/-- Variants to describe endianness (src/lib.rs `enum Endian`). -/
inductive Endian where
  | big : Endian
  | little : Endian
deriving DecidableEq

/-- Error taxonomy. Modelled from the spec: `error.rs` is not under `src/`;
the spec lists `ReadPastEnd`, `InvalidChar`, `TextEncodingError`, `Io`, and
the code in `src/` constructs `BinaryError::ReadPastEof` and
`BinaryError::InvalidChar` and converts UTF-8 decoding failures via `?`. -/
inductive BinaryError where
  | readPastEof : BinaryError
  | invalidChar : BinaryError
  | textEncodingError : BinaryError
  | io : BinaryError
deriving DecidableEq

/-- The buffer-backed stream (src/memory/memory.rs `MemoryStream`): a mutable
byte slice plus a cursor. `new_vec` coerces a `&mut Vec<u8>` to `&mut [u8]`,
so the backing is a fixed-length slice in every construction mode. -/
structure MemoryStream where
  buffer : List Nat
  position : Nat
deriving DecidableEq

/-- Constructor `MemoryStream::new_vec`: wraps the buffer, cursor 0. -/
def MemoryStream.new_vec (buffer : List Nat) : MemoryStream :=
  { buffer := buffer, position := 0 }

/-- Method `MemoryStream::get_buffer`: a copy of the full backing content. -/
def MemoryStream.get_buffer (s : MemoryStream) : List Nat :=
  s.buffer

/-- Trait method `SeekStream::seek` for `MemoryStream`: sets the cursor
unconditionally and returns `Ok` of the new position. -/
def MemoryStream.seek (s : MemoryStream) (t : Nat) :
    Except BinaryError Nat × MemoryStream :=
  (Except.ok t, { s with position := t })

/-- Trait method `SeekStream::tell` for `MemoryStream`: returns the cursor. -/
def MemoryStream.tell (s : MemoryStream) :
    Except BinaryError Nat × MemoryStream :=
  (Except.ok s.position, s)

/-- Trait method `SeekStream::len` for `MemoryStream`. -/
def MemoryStream.len (s : MemoryStream) : Except BinaryError Nat :=
  Except.ok s.buffer.length

/-- The `Read` impl for `MemoryStream`: fails with `ReadPastEof` when
`position + n` exceeds the buffer length (leaving the stream untouched),
otherwise copies `buffer[position .. position+n]` out and advances the
cursor by `n`. The first component is the result (read bytes), the second
the stream after the call. -/
def MemoryStream.read (s : MemoryStream) (n : Nat) :
    Except BinaryError (List Nat) × MemoryStream :=
  if s.buffer.length < s.position + n then
    (Except.error BinaryError.readPastEof, s)
  else
    (Except.ok ((s.buffer.drop s.position).take n),
     { s with position := s.position + n })

/-- The `Write` impl for `MemoryStream`: `self.buffer.clone_from_slice(bytes)`
followed by `self.position += bytes.len()`. `clone_from_slice` overwrites the
whole backing slice from byte 0 and panics (`none`) unless the lengths match
exactly. Returns the written stream (the Rust return value is
`Ok(bytes.len())`). -/
def MemoryStream.write (s : MemoryStream) (bytes : List Nat) :
    Option MemoryStream :=
  if bytes.length = s.buffer.length then
    some { buffer := bytes, position := s.position + bytes.length }
  else
    none

/-! Byte-order codecs: the expansions of the `write_data!` / `read_data!`
macros, i.e. the Rust `to_le_bytes` / `to_be_bytes` / `from_le_bytes` /
`from_be_bytes` primitives on `w`-byte integers. -/

/-- Little-endian byte decomposition of `x` into `w` bytes
(`uN::to_le_bytes`). -/
def toLeBytes : Nat → Nat → List Nat
  | 0, _ => []
  | w + 1, x => x % 256 :: toLeBytes w (x / 256)

/-- Little-endian byte recomposition (`uN::from_le_bytes`). -/
def fromLeBytes : List Nat → Nat
  | [] => 0
  | b :: bs => b + 256 * fromLeBytes bs

/-- The byte sequence emitted by `write_data!` for a `w`-byte unsigned value
under endianness `e` (`to_le_bytes` / `to_be_bytes`). -/
def encodeNat (e : Endian) (w x : Nat) : List Nat :=
  match e with
  | Endian.little => toLeBytes w x
  | Endian.big => (toLeBytes w x).reverse

/-- The value recovered by `read_data!` from a byte sequence under
endianness `e` (`from_le_bytes` / `from_be_bytes`). -/
def decodeNat (e : Endian) (bs : List Nat) : Nat :=
  match e with
  | Endian.little => fromLeBytes bs
  | Endian.big => fromLeBytes bs.reverse

/-- Two's-complement reduction of a signed value into an unsigned `8*w`-bit
value (the Rust `as uN` view taken by `iN::to_le_bytes`). -/
def intAsNat (w : Nat) (x : Int) : Nat :=
  (x % ((2 : Int) ^ (8 * w))).toNat

/-- Two's-complement interpretation of an unsigned `8*w`-bit value as a
signed value (the view taken by `iN::from_le_bytes`). -/
def natAsInt (w n : Nat) : Int :=
  if n < 2 ^ (8 * w - 1) then (n : Int) else (n : Int) - 2 ^ (8 * w)

/-- Byte sequence emitted by `write_data!` for a `w`-byte signed value. -/
def encodeInt (e : Endian) (w : Nat) (x : Int) : List Nat :=
  encodeNat e w (intAsNat w x)

/-- Value recovered by `read_data!` for a `w`-byte signed type. -/
def decodeInt (e : Endian) (w : Nat) (bs : List Nat) : Int :=
  natAsInt w (decodeNat e bs)

theorem toLeBytes_length (w x : Nat) : (toLeBytes w x).length = w := by
  induction w generalizing x with
  | zero => simp [toLeBytes]
  | succ n ih => simp [toLeBytes, ih]

theorem encodeNat_length (e : Endian) (w x : Nat) :
    (encodeNat e w x).length = w := by
  cases e <;> simp [encodeNat, toLeBytes_length]

theorem encodeInt_length (e : Endian) (w : Nat) (x : Int) :
    (encodeInt e w x).length = w := by
  simp [encodeInt, encodeNat_length]

theorem fromLeBytes_toLeBytes (w x : Nat) :
    fromLeBytes (toLeBytes w x) = x % 2 ^ (8 * w) := by
  induction w generalizing x with
  | zero => simp [toLeBytes, fromLeBytes, Nat.mod_one]
  | succ n ih =>
    simp only [toLeBytes, fromLeBytes, ih]
    rw [show (2 : Nat) ^ (8 * (n + 1)) = 256 * 2 ^ (8 * n) by ring]
    exact Nat.mod_mul.symm

theorem decodeNat_encodeNat (e : Endian) (w x : Nat) :
    decodeNat e (encodeNat e w x) = x % 2 ^ (8 * w) := by
  cases e <;>
    simp [decodeNat, encodeNat, List.reverse_reverse, fromLeBytes_toLeBytes]

theorem decodeNat_encodeNat_of_lt (e : Endian) (w x : Nat)
    (h : x < 2 ^ (8 * w)) : decodeNat e (encodeNat e w x) = x := by
  rw [decodeNat_encodeNat, Nat.mod_eq_of_lt h]

theorem intAsNat_lt (w : Nat) (x : Int) : intAsNat w x < 2 ^ (8 * w) := by
  have hc : ((2 ^ (8 * w) : Nat) : Int) = (2 : Int) ^ (8 * w) := by
    push_cast
    ring
  have hpos : (0 : Int) < (2 : Int) ^ (8 * w) := by positivity
  have hlt := Int.emod_lt_of_pos x (b := (2 : Int) ^ (8 * w)) hpos
  have hnn := Int.emod_nonneg x (ne_of_gt hpos)
  unfold intAsNat
  generalize hy : x % ((2 : Int) ^ (8 * w)) = y at hlt hnn ⊢
  omega

theorem intAsNat_ofNat (w n : Nat) (h : n < 2 ^ (8 * w)) :
    intAsNat w ((n : Int)) = n := by
  unfold intAsNat
  have h2 : ((n : Int)) < 2 ^ (8 * w) := by exact_mod_cast h
  rw [Int.emod_eq_of_lt (by positivity) h2]
  simp

theorem natAsInt_intAsNat (w : Nat) (hw : 0 < w) (x : Int)
    (h1 : -(2 ^ (8 * w - 1)) ≤ x) (h2 : x < 2 ^ (8 * w - 1)) :
    natAsInt w (intAsNat w x) = x := by
  have hsplit : (2 : Int) ^ (8 * w) = 2 ^ (8 * w - 1) * 2 := by
    rw [← pow_succ]
    congr 1
    omega
  have hpos : (0 : Int) < (2 : Int) ^ (8 * w) := by positivity
  have hmod : x % ((2 : Int) ^ (8 * w)) = if 0 ≤ x then x else x + 2 ^ (8 * w) := by
    by_cases hx : 0 ≤ x
    · simp only [hx, if_true]
      exact Int.emod_eq_of_lt hx (by omega)
    · simp only [hx, if_false]
      have : (x + 2 ^ (8 * w)) % ((2 : Int) ^ (8 * w)) = x % ((2 : Int) ^ (8 * w)) := by
        have h9 := Int.add_mul_emod_self_left (a := x) (b := (2 : Int) ^ (8 * w)) (c := 1)
        rw [mul_one] at h9
        exact h9
      rw [← this]
      exact Int.emod_eq_of_lt (by omega) (by omega)
  have hcast : ((2 ^ (8 * w - 1) : Nat) : Int) = (2 : Int) ^ (8 * w - 1) := by
    push_cast
    ring
  unfold natAsInt intAsNat
  by_cases hx : 0 ≤ x
  · simp only [hmod, hx, if_true]
    have htn : ((x.toNat : Int)) = x := Int.toNat_of_nonneg hx
    have hlt : x.toNat < 2 ^ (8 * w - 1) := by
      have : ((x.toNat : Int)) < ((2 ^ (8 * w - 1) : Nat) : Int) := by omega
      exact_mod_cast this
    simp [hlt, htn]
  · simp only [hmod, hx, if_false]
    have hnn : (0 : Int) ≤ x + 2 ^ (8 * w) := by omega
    have htn : (((x + 2 ^ (8 * w)).toNat : Int)) = x + 2 ^ (8 * w) :=
      Int.toNat_of_nonneg hnn
    have hge : ¬ (x + 2 ^ (8 * w)).toNat < 2 ^ (8 * w - 1) := by
      intro hc
      have : (((x + 2 ^ (8 * w)).toNat : Int)) < ((2 ^ (8 * w - 1) : Nat) : Int) := by
        exact_mod_cast hc
      omega
    simp only [hge, if_false]
    omega

theorem decodeInt_encodeInt (e : Endian) (w : Nat) (hw : 0 < w) (x : Int)
    (h1 : -(2 ^ (8 * w - 1)) ≤ x) (h2 : x < 2 ^ (8 * w - 1)) :
    decodeInt e w (encodeInt e w x) = x := by
  unfold decodeInt encodeInt
  rw [decodeNat_encodeNat_of_lt e w _ (intAsNat_lt w x)]
  exact natAsInt_intAsNat w hw x h1 h2

/-! UTF-8 validity, modelling Rust's `String::from_utf8` acceptance condition
(well-formed UTF-8 per the table in RFC 3629 / the Rust standard library). -/

/-- Continuation byte test: `0x80 ≤ b ≤ 0xBF`. -/
def utf8Cont (b : Nat) : Bool :=
  decide (0x80 ≤ b) && decide (b ≤ 0xBF)

/-- Whether a byte sequence is well-formed UTF-8 (the success condition of
`String::from_utf8`). -/
def utf8Valid : List Nat → Bool
  | [] => true
  | b :: rest =>
    if b < 0x80 then utf8Valid rest
    else if 0xC2 ≤ b ∧ b ≤ 0xDF then
      match rest with
      | c1 :: r => utf8Cont c1 && utf8Valid r
      | [] => false
    else if b = 0xE0 then
      match rest with
      | c1 :: c2 :: r =>
        (decide (0xA0 ≤ c1) && decide (c1 ≤ 0xBF)) && utf8Cont c2 && utf8Valid r
      | _ => false
    else if b = 0xED then
      match rest with
      | c1 :: c2 :: r =>
        (decide (0x80 ≤ c1) && decide (c1 ≤ 0x9F)) && utf8Cont c2 && utf8Valid r
      | _ => false
    else if 0xE1 ≤ b ∧ b ≤ 0xEF then
      match rest with
      | c1 :: c2 :: r => utf8Cont c1 && utf8Cont c2 && utf8Valid r
      | _ => false
    else if b = 0xF0 then
      match rest with
      | c1 :: c2 :: c3 :: r =>
        (decide (0x90 ≤ c1) && decide (c1 ≤ 0xBF)) && utf8Cont c2 && utf8Cont c3
          && utf8Valid r
      | _ => false
    else if 0xF1 ≤ b ∧ b ≤ 0xF3 then
      match rest with
      | c1 :: c2 :: c3 :: r => utf8Cont c1 && utf8Cont c2 && utf8Cont c3 && utf8Valid r
      | _ => false
    else if b = 0xF4 then
      match rest with
      | c1 :: c2 :: c3 :: r =>
        (decide (0x80 ≤ c1) && decide (c1 ≤ 0x8F)) && utf8Cont c2 && utf8Cont c3
          && utf8Valid r
      | _ => false
    else false

/-! The typed reader (src/lib.rs `BinaryReader`). Scalar reads expand the
`read_data!` macro: read a fixed-width scratch buffer from the stream,
propagate `ReadPastEof`, then decode per the current endianness. -/

/-- A `BinaryReader`: a `MemoryStream` plus an endianness. -/
structure BinaryReader where
  stream : MemoryStream
  endian : Endian
deriving DecidableEq

/-- Constructor `BinaryReader::new_vec`. -/
def BinaryReader.new_vec (buffer : List Nat) (endian : Endian) : BinaryReader :=
  { stream := MemoryStream.new_vec buffer, endian := endian }

/-- Common expansion of the unsigned scalar readers: read `k` bytes, decode
per the current endianness. -/
def BinaryReader.read_scalar (r : BinaryReader) (k : Nat) :
    Except BinaryError (Nat × BinaryReader) :=
  match r.stream.read k with
  | (Except.error e, _) => Except.error e
  | (Except.ok bs, s) => Except.ok (decodeNat r.endian bs, ⟨s, r.endian⟩)

/-- Common expansion of the signed scalar readers: read `k` bytes, decode
per the current endianness, interpret as two's complement. -/
def BinaryReader.read_signed (r : BinaryReader) (k : Nat) :
    Except BinaryError (Int × BinaryReader) :=
  match r.stream.read k with
  | (Except.error e, _) => Except.error e
  | (Except.ok bs, s) => Except.ok (natAsInt k (decodeNat r.endian bs), ⟨s, r.endian⟩)

/-- Method `read_u8`. -/
def BinaryReader.read_u8 (r : BinaryReader) : Except BinaryError (Nat × BinaryReader) :=
  r.read_scalar 1

/-- Method `read_u16`. -/
def BinaryReader.read_u16 (r : BinaryReader) : Except BinaryError (Nat × BinaryReader) :=
  r.read_scalar 2

/-- Method `read_u32`. -/
def BinaryReader.read_u32 (r : BinaryReader) : Except BinaryError (Nat × BinaryReader) :=
  r.read_scalar 4

/-- Method `read_u64`. -/
def BinaryReader.read_u64 (r : BinaryReader) : Except BinaryError (Nat × BinaryReader) :=
  r.read_scalar 8

/-- Method `read_usize` (default, non-`wasm32` target: 8 bytes). -/
def BinaryReader.read_usize (r : BinaryReader) : Except BinaryError (Nat × BinaryReader) :=
  r.read_scalar 8

/-- Method `read_i8`. -/
def BinaryReader.read_i8 (r : BinaryReader) : Except BinaryError (Int × BinaryReader) :=
  r.read_signed 1

/-- Method `read_i16`. -/
def BinaryReader.read_i16 (r : BinaryReader) : Except BinaryError (Int × BinaryReader) :=
  r.read_signed 2

/-- Method `read_i32`. -/
def BinaryReader.read_i32 (r : BinaryReader) : Except BinaryError (Int × BinaryReader) :=
  r.read_signed 4

/-- Method `read_i64`. -/
def BinaryReader.read_i64 (r : BinaryReader) : Except BinaryError (Int × BinaryReader) :=
  r.read_signed 8

/-- Method `read_isize` (default, non-`wasm32` target: 8 bytes). -/
def BinaryReader.read_isize (r : BinaryReader) : Except BinaryError (Int × BinaryReader) :=
  r.read_signed 8

/-- Method `read_f32`, with the `f32` represented by its IEEE-754 bit
pattern: `f32::from_le_bytes`/`from_be_bytes` reassemble exactly the raw
bytes, so at byte level this is the `u32` codec. -/
def BinaryReader.read_f32 (r : BinaryReader) : Except BinaryError (Nat × BinaryReader) :=
  r.read_scalar 4

/-- Method `read_f64`, represented by its IEEE-754 bit pattern. -/
def BinaryReader.read_f64 (r : BinaryReader) : Except BinaryError (Nat × BinaryReader) :=
  r.read_scalar 8

/-- Method `read_bool`: reads a `u8` and returns `value > 0`. -/
def BinaryReader.read_bool (r : BinaryReader) : Except BinaryError (Bool × BinaryReader) :=
  match r.read_u8 with
  | Except.error e => Except.error e
  | Except.ok (v, r1) => Except.ok (decide (0 < v), r1)

/-- Rust's `std::char::from_u32` on the scalar-value level: `some n` exactly
when `n` is a Unicode scalar value (below `0x110000` and not a surrogate). -/
def char_from_u32 (n : Nat) : Option Nat :=
  if 0x110000 ≤ n ∨ (0xD800 ≤ n ∧ n ≤ 0xDFFF) then none else some n

/-- Method `read_char`: reads a `u32` and converts with `char::from_u32`,
failing with `InvalidChar` when the value is not a Unicode scalar value. -/
def BinaryReader.read_char (r : BinaryReader) : Except BinaryError (Nat × BinaryReader) :=
  match r.read_u32 with
  | Except.error e => Except.error e
  | Except.ok (n, r1) =>
    match char_from_u32 n with
    | some c => Except.ok (c, r1)
    | none => Except.error BinaryError.invalidChar

/-- Method `read_bytes`: reads `length` raw bytes from the cursor. -/
def BinaryReader.read_bytes (r : BinaryReader) (length : Nat) :
    Except BinaryError (List Nat × BinaryReader) :=
  match r.stream.read length with
  | (Except.error e, _) => Except.error e
  | (Except.ok bs, s) => Except.ok (bs, ⟨s, r.endian⟩)

/-- Method `read_bytes_at`: seeks to `p`, then reads `length` bytes. -/
def BinaryReader.read_bytes_at (r : BinaryReader) (length p : Nat) :
    Except BinaryError (List Nat × BinaryReader) :=
  let s0 := (r.stream.seek p).2
  match s0.read length with
  | (Except.error e, _) => Except.error e
  | (Except.ok bs, s) => Except.ok (bs, ⟨s, r.endian⟩)

/-- Method `read_string` (default, non-`wasm32` build): reads a `usize`
length, then that many bytes, then decodes them as UTF-8 (`String::from_utf8`,
converted to a `BinaryError` by `?`). The string is modelled as its UTF-8
byte sequence. -/
def BinaryReader.read_string (r : BinaryReader) :
    Except BinaryError (List Nat × BinaryReader) :=
  match r.read_usize with
  | Except.error e => Except.error e
  | Except.ok (n, r1) =>
    match r1.stream.read n with
    | (Except.error e, _) => Except.error e
    | (Except.ok bs, s) =>
      if utf8Valid bs then Except.ok (bs, ⟨s, r1.endian⟩)
      else Except.error BinaryError.textEncodingError

/-- Method `read_string` under the `wasm32` feature: the length is read as a
`u32` instead of a `usize`. -/
def BinaryReader.read_string_w32 (r : BinaryReader) :
    Except BinaryError (List Nat × BinaryReader) :=
  match r.read_u32 with
  | Except.error e => Except.error e
  | Except.ok (n, r1) =>
    match r1.stream.read n with
    | (Except.error e, _) => Except.error e
    | (Except.ok bs, s) =>
      if utf8Valid bs then Except.ok (bs, ⟨s, r1.endian⟩)
      else Except.error BinaryError.textEncodingError

/-- Method `read_big_string`: reads an `i32` length, casts it `as usize`
(two's-complement reinterpretation into 64 bits), reads that many bytes,
decodes them as UTF-8. -/
def BinaryReader.read_big_string (r : BinaryReader) :
    Except BinaryError (List Nat × BinaryReader) :=
  match r.read_i32 with
  | Except.error e => Except.error e
  | Except.ok (len, r1) =>
    match r1.read_bytes (intAsNat 8 len) with
    | Except.error e => Except.error e
    | Except.ok (bs, r2) =>
      if utf8Valid bs then Except.ok (bs, r2)
      else Except.error BinaryError.textEncodingError

/-- Method `BinaryReader::swap_endianness`. -/
def BinaryReader.swap_endianness (r : BinaryReader) : BinaryReader :=
  if r.endian = Endian.big then { r with endian := Endian.little }
  else { r with endian := Endian.big }

/-! The typed writer (src/lib.rs `BinaryWriter`). Scalar writes expand the
`write_data!` macro: serialize per the current endianness, then
`stream.write` (which, per the `Write` impl above, overwrites the whole
backing slice and panics on a length mismatch). -/

/-- A `BinaryWriter`: a `MemoryStream` plus an endianness. -/
structure BinaryWriter where
  stream : MemoryStream
  endian : Endian
deriving DecidableEq

/-- Constructor `BinaryWriter::new_vec`. -/
def BinaryWriter.new_vec (buffer : List Nat) (endian : Endian) : BinaryWriter :=
  { stream := MemoryStream.new_vec buffer, endian := endian }

/-- Common expansion of the unsigned scalar writers: encode `k` bytes per the
current endianness and write them; the returned count is `k`. -/
def BinaryWriter.write_scalar (w : BinaryWriter) (k x : Nat) :
    Option (Nat × BinaryWriter) :=
  (w.stream.write (encodeNat w.endian k x)).map (fun s => (k, ⟨s, w.endian⟩))

/-- Common expansion of the signed scalar writers. -/
def BinaryWriter.write_signed (w : BinaryWriter) (k : Nat) (x : Int) :
    Option (Nat × BinaryWriter) :=
  (w.stream.write (encodeInt w.endian k x)).map (fun s => (k, ⟨s, w.endian⟩))

/-- Method `write_u8`. -/
def BinaryWriter.write_u8 (w : BinaryWriter) (x : Nat) : Option (Nat × BinaryWriter) :=
  w.write_scalar 1 x

/-- Method `write_u16`. -/
def BinaryWriter.write_u16 (w : BinaryWriter) (x : Nat) : Option (Nat × BinaryWriter) :=
  w.write_scalar 2 x

/-- Method `write_u32`. -/
def BinaryWriter.write_u32 (w : BinaryWriter) (x : Nat) : Option (Nat × BinaryWriter) :=
  w.write_scalar 4 x

/-- Method `write_u64`. -/
def BinaryWriter.write_u64 (w : BinaryWriter) (x : Nat) : Option (Nat × BinaryWriter) :=
  w.write_scalar 8 x

/-- Method `write_usize` (default, non-`wasm32` target: 8 bytes). -/
def BinaryWriter.write_usize (w : BinaryWriter) (x : Nat) : Option (Nat × BinaryWriter) :=
  w.write_scalar 8 x

/-- Method `write_i8`. -/
def BinaryWriter.write_i8 (w : BinaryWriter) (x : Int) : Option (Nat × BinaryWriter) :=
  w.write_signed 1 x

/-- Method `write_i16`. -/
def BinaryWriter.write_i16 (w : BinaryWriter) (x : Int) : Option (Nat × BinaryWriter) :=
  w.write_signed 2 x

/-- Method `write_i32`. -/
def BinaryWriter.write_i32 (w : BinaryWriter) (x : Int) : Option (Nat × BinaryWriter) :=
  w.write_signed 4 x

/-- Method `write_i64`. -/
def BinaryWriter.write_i64 (w : BinaryWriter) (x : Int) : Option (Nat × BinaryWriter) :=
  w.write_signed 8 x

/-- Method `write_isize` (default, non-`wasm32` target: 8 bytes). -/
def BinaryWriter.write_isize (w : BinaryWriter) (x : Int) : Option (Nat × BinaryWriter) :=
  w.write_signed 8 x

/-- Method `write_f32`, with the `f32` given by its IEEE-754 bit pattern
(`f32::to_le_bytes`/`to_be_bytes` emit exactly the raw bytes of the bit
pattern, so at byte level this is the `u32` codec). -/
def BinaryWriter.write_f32 (w : BinaryWriter) (bits : Nat) : Option (Nat × BinaryWriter) :=
  w.write_scalar 4 bits

/-- Method `write_f64`, by IEEE-754 bit pattern. -/
def BinaryWriter.write_f64 (w : BinaryWriter) (bits : Nat) : Option (Nat × BinaryWriter) :=
  w.write_scalar 8 bits

/-- Method `write_bool`: writes the `u8` `1` or `0`. -/
def BinaryWriter.write_bool (w : BinaryWriter) (b : Bool) : Option (Nat × BinaryWriter) :=
  w.write_u8 (if b then 1 else 0)

/-- Method `write_char`: writes the scalar value `as u32`. -/
def BinaryWriter.write_char (w : BinaryWriter) (c : Nat) : Option (Nat × BinaryWriter) :=
  w.write_u32 c

/-- Method `write_bytes`: raw byte write. -/
def BinaryWriter.write_bytes (w : BinaryWriter) (data : List Nat) :
    Option (Nat × BinaryWriter) :=
  (w.stream.write data).map (fun s => (data.length, ⟨s, w.endian⟩))

/-- Method `write_bytes_at`: seeks to `p`, then writes; the cursor is not
restored afterwards. -/
def BinaryWriter.write_bytes_at (w : BinaryWriter) (data : List Nat) (p : Nat) :
    Option (Nat × BinaryWriter) :=
  let s0 := (w.stream.seek p).2
  (s0.write data).map (fun s => (data.length, ⟨s, w.endian⟩))

/-- Method `write_big_string`: optional seek, then a raw byte write; no
length is emitted. -/
def BinaryWriter.write_big_string (w : BinaryWriter) (data : List Nat)
    (p : Option Nat) : Option (Nat × BinaryWriter) :=
  let s0 := match p with
    | some q => (w.stream.seek q).2
    | none => w.stream
  (s0.write data).map (fun s => (data.length, ⟨s, w.endian⟩))

/-- Method `write_bytes_with_value`: writes `count` copies of `fill`. -/
def BinaryWriter.write_bytes_with_value (w : BinaryWriter) (count fill : Nat) :
    Option (Nat × BinaryWriter) :=
  w.write_bytes (List.replicate count fill)

/-- Method `write_string` (default, non-`wasm32` build): writes the byte
length as a `usize`, then the raw UTF-8 bytes. -/
def BinaryWriter.write_string (w : BinaryWriter) (s : List Nat) :
    Option (Nat × BinaryWriter) :=
  match w.write_usize s.length with
  | none => none
  | some (_, w1) => (w1.stream.write s).map (fun st => (s.length, ⟨st, w1.endian⟩))

/-- Method `write_string` under the `wasm32` feature: the length is written
as a `u32`. -/
def BinaryWriter.write_string_w32 (w : BinaryWriter) (s : List Nat) :
    Option (Nat × BinaryWriter) :=
  match w.write_u32 s.length with
  | none => none
  | some (_, w1) => (w1.stream.write s).map (fun st => (s.length, ⟨st, w1.endian⟩))

/-- Method `BinaryWriter::swap_endianness`. -/
def BinaryWriter.swap_endianness (w : BinaryWriter) : BinaryWriter :=
  if w.endian = Endian.big then { w with endian := Endian.little }
  else { w with endian := Endian.big }

/-! Helper lemmas about the stream primitives. -/

theorem MemoryStream.read_le (buf : List Nat) (p n : Nat) (h : p + n ≤ buf.length) :
    MemoryStream.read ⟨buf, p⟩ n
      = (Except.ok ((buf.drop p).take n), ⟨buf, p + n⟩) := by
  simp only [MemoryStream.read]
  rw [if_neg (by show ¬ (buf.length < p + n); omega)]

theorem MemoryStream.read_all (bs : List Nat) :
    MemoryStream.read ⟨bs, 0⟩ bs.length = (Except.ok bs, ⟨bs, bs.length⟩) := by
  rw [MemoryStream.read_le bs 0 bs.length (by omega)]
  simp

theorem BinaryWriter.write_scalar_fresh (e : Endian) (k x : Nat) :
    (BinaryWriter.new_vec (List.replicate k 0) e).write_scalar k x
      = some (k, ⟨⟨encodeNat e k x, k⟩, e⟩) := by
  simp [BinaryWriter.write_scalar, BinaryWriter.new_vec, MemoryStream.new_vec,
    MemoryStream.write, encodeNat_length]

theorem BinaryWriter.write_signed_fresh (e : Endian) (k : Nat) (x : Int) :
    (BinaryWriter.new_vec (List.replicate k 0) e).write_signed k x
      = some (k, ⟨⟨encodeInt e k x, k⟩, e⟩) := by
  simp [BinaryWriter.write_signed, BinaryWriter.new_vec, MemoryStream.new_vec,
    MemoryStream.write, encodeInt_length]

theorem BinaryReader.read_scalar_fresh (e : Endian) (k x : Nat)
    (hx : x < 2 ^ (8 * k)) :
    (BinaryReader.new_vec (encodeNat e k x) e).read_scalar k
      = Except.ok (x, ⟨⟨encodeNat e k x, k⟩, e⟩) := by
  have hr : MemoryStream.read ⟨encodeNat e k x, 0⟩ k
      = (Except.ok (encodeNat e k x), ⟨encodeNat e k x, k⟩) := by
    have h := MemoryStream.read_all (encodeNat e k x)
    rwa [encodeNat_length] at h
  simp [BinaryReader.read_scalar, BinaryReader.new_vec, MemoryStream.new_vec, hr,
    decodeNat_encodeNat_of_lt e k x hx]

theorem BinaryReader.read_signed_fresh (e : Endian) (k : Nat) (hk : 0 < k) (x : Int)
    (h1 : -(2 ^ (8 * k - 1)) ≤ x) (h2 : x < 2 ^ (8 * k - 1)) :
    (BinaryReader.new_vec (encodeInt e k x) e).read_signed k
      = Except.ok (x, ⟨⟨encodeInt e k x, k⟩, e⟩) := by
  have hr : MemoryStream.read ⟨encodeInt e k x, 0⟩ k
      = (Except.ok (encodeInt e k x), ⟨encodeInt e k x, k⟩) := by
    have h := MemoryStream.read_all (encodeInt e k x)
    rwa [encodeInt_length] at h
  have hd := decodeInt_encodeInt e k hk x h1 h2
  unfold decodeInt at hd
  simp [BinaryReader.read_signed, BinaryReader.new_vec, MemoryStream.new_vec, hr, hd]

/-! Claim theorems. -/

/-- C1 (counterexample): on a stream built over a Vec (`new_vec` mode, which
the spec calls borrowed-growable), writing 2 bytes to a 2-byte backing with
the cursor at the end does NOT append at the end of the backing sequence — it
overwrites the whole backing in place; and a 1-byte write (which per the
claim would append) panics outright. -/
theorem C1_counterexample :
    (MemoryStream.write ⟨[1, 2], 2⟩ [9, 9]).map MemoryStream.buffer = some [9, 9]
    ∧ (MemoryStream.write ⟨[1, 2], 2⟩ [9, 9]).map MemoryStream.buffer
        ≠ some ([1, 2] ++ [9, 9])
    ∧ MemoryStream.write ⟨[1, 2], 2⟩ [9] = none := by
  decide

/-- C1 (amended): a stream over a Vec-backed buffer is not growable — the
backing is a fixed-length slice. A write of `n` bytes succeeds only when `n`
equals the backing length, in which case it overwrites the entire backing
(from byte 0) and advances the cursor by `n`; any other length panics; the
backing length never changes. -/
theorem C1_vec_write_overwrites (buf bytes : List Nat) (p : Nat) :
    (bytes.length = buf.length →
      MemoryStream.write ⟨buf, p⟩ bytes = some ⟨bytes, p + bytes.length⟩)
    ∧ (bytes.length ≠ buf.length → MemoryStream.write ⟨buf, p⟩ bytes = none)
    ∧ (MemoryStream.write ⟨buf, p⟩ bytes).map (fun s => s.buffer.length)
        = (MemoryStream.write ⟨buf, p⟩ bytes).map (fun _ => buf.length) := by
  by_cases h : bytes.length = buf.length <;> simp [MemoryStream.write, h]

/-- Witness for the amended C1 at a concrete input. -/
theorem C1_vec_write_overwrites_witness :
    MemoryStream.write ⟨[0, 0], 0⟩ [5, 6] = some ⟨[5, 6], 2⟩
    ∧ MemoryStream.write ⟨[0, 0], 0⟩ [5] = none :=
  ⟨(C1_vec_write_overwrites [0, 0] [5, 6] 0).1 (by decide),
   (C1_vec_write_overwrites [0, 0] [5] 0).2.1 (by decide)⟩

/-- C2: a stream read of `n` bytes fails with `ReadPastEof` exactly when
`position + n` exceeds the buffer length; on that failure the stream (in
particular its cursor) is unchanged; reading exactly the remaining bytes
succeeds, returns them, and leaves the cursor at end-of-buffer. -/
theorem C2_read_bounds (s : MemoryStream) (n : Nat) :
    ((s.read n).1 = Except.error BinaryError.readPastEof
        ↔ s.buffer.length < s.position + n)
    ∧ (s.buffer.length < s.position + n → (s.read n).2 = s)
    ∧ (s.position ≤ s.buffer.length →
        s.read (s.buffer.length - s.position)
          = (Except.ok (s.buffer.drop s.position), ⟨s.buffer, s.buffer.length⟩)) := by
  obtain ⟨buf, pos⟩ := s
  refine ⟨?_, ?_, ?_⟩
  · by_cases h : buf.length < pos + n <;> simp [MemoryStream.read, h]
  · intro h
    simp [MemoryStream.read, h]
  · intro h
    have h9 : pos ≤ buf.length := h
    show MemoryStream.read ⟨buf, pos⟩ (buf.length - pos)
        = (Except.ok (buf.drop pos), ⟨buf, buf.length⟩)
    rw [MemoryStream.read_le buf pos (buf.length - pos) (by omega)]
    have hn : pos + (buf.length - pos) = buf.length := by omega
    rw [hn]
    have hlen : (buf.drop pos).length = buf.length - pos := by simp
    rw [← hlen, List.take_length]

/-- Witness for C2 at concrete inputs: an over-long read fails, and reading
exactly the remaining 2 bytes of a 3-byte buffer from cursor 1 succeeds and
ends at the buffer end. -/
theorem C2_read_bounds_witness :
    ((⟨[1, 2, 3], 1⟩ : MemoryStream).read 5).1 = Except.error BinaryError.readPastEof
    ∧ (⟨[1, 2, 3], 1⟩ : MemoryStream).read 2 = (Except.ok [2, 3], ⟨[1, 2, 3], 3⟩) :=
  ⟨(C2_read_bounds ⟨[1, 2, 3], 1⟩ 5).1.mpr (by decide),
   by have h := (C2_read_bounds ⟨[1, 2, 3], 1⟩ 2).2.2 (by decide); simpa using h⟩

/-- C3: a write of `n` bytes overwrites the backing range starting at byte 0
(the whole resulting backing is the written bytes, independent of the
cursor), succeeds only when `n` exactly matches the backing length (a
mismatch panics instead of succeeding partially), and on success advances
the cursor by `n`. -/
theorem C3_fixed_write (s : MemoryStream) (bytes : List Nat) :
    (bytes.length = s.buffer.length →
      s.write bytes = some ⟨bytes, s.position + bytes.length⟩)
    ∧ (bytes.length ≠ s.buffer.length → s.write bytes = none) := by
  constructor <;> intro h <;> simp [MemoryStream.write, h]

/-- Witness for C3 at concrete inputs. -/
theorem C3_fixed_write_witness :
    MemoryStream.write ⟨[7, 7, 7], 1⟩ [1, 2, 3] = some ⟨[1, 2, 3], 4⟩
    ∧ MemoryStream.write ⟨[7, 7, 7], 1⟩ [1, 2] = none :=
  ⟨(C3_fixed_write ⟨[7, 7, 7], 1⟩ [1, 2, 3]).1 (by decide),
   (C3_fixed_write ⟨[7, 7, 7], 1⟩ [1, 2]).2 (by decide)⟩

/-- C6: `seek` unconditionally sets the cursor (also past the end), always
succeeds, returns the new position and leaves the buffer untouched; `tell`
returns the cursor with no side effect; an out-of-range cursor is only
observed at a subsequent read, which fails exactly when `p + n` exceeds the
buffer length. -/
theorem C6_seek_tell (s : MemoryStream) (p n : Nat) :
    s.seek p = (Except.ok p, ⟨s.buffer, p⟩)
    ∧ s.tell = (Except.ok s.position, s)
    ∧ (((⟨s.buffer, p⟩ : MemoryStream).read n).1
          = Except.error BinaryError.readPastEof
        ↔ s.buffer.length < p + n) := by
  obtain ⟨buf, pos⟩ := s
  refine ⟨rfl, rfl, ?_⟩
  by_cases h : buf.length < p + n <;> simp [MemoryStream.read, h]

/-- Witness for C6 at a concrete input: seeking to 10 in a 2-byte buffer
succeeds, and the overrun is only reported by the subsequent read. -/
theorem C6_seek_tell_witness :
    (⟨[1, 2], 0⟩ : MemoryStream).seek 10 = (Except.ok 10, ⟨[1, 2], 10⟩)
    ∧ ((⟨[1, 2], 10⟩ : MemoryStream).read 1).1
        = Except.error BinaryError.readPastEof :=
  ⟨(C6_seek_tell ⟨[1, 2], 0⟩ 10 1).1,
   (C6_seek_tell ⟨[1, 2], 0⟩ 10 1).2.2.mpr (by decide)⟩

/-- C10: `swap_endianness` on both reader and writer changes only the
endianness field — the stream (buffer and cursor) is untouched — and applying
it twice restores the original reader/writer. -/
theorem C10_swap_endianness_frame (r : BinaryReader) (w : BinaryWriter) :
    r.swap_endianness.stream = r.stream
    ∧ w.swap_endianness.stream = w.stream
    ∧ r.swap_endianness.swap_endianness = r
    ∧ w.swap_endianness.swap_endianness = w
    ∧ r.swap_endianness.endian ≠ r.endian
    ∧ w.swap_endianness.endian ≠ w.endian := by
  obtain ⟨rs, re⟩ := r
  obtain ⟨ws, we⟩ := w
  cases re <;> cases we <;>
    simp [BinaryReader.swap_endianness, BinaryWriter.swap_endianness]

/-- C4: for every supported scalar type (8/16/32/64-bit unsigned and signed
integers, the 8-byte platform-word `usize`/`isize`, `f32`/`f64` by IEEE-754
bit pattern — which covers NaN and Infinity patterns — and `bool`) and both
endianness settings, writing the value onto a fresh buffer of the type's
width emits exactly its byte encoding, and reading that encoding back
returns the original value: `decode(encode(x)) = x`. -/
theorem C4_scalar_roundtrip (e : Endian)
    (u1 u2 u4 u8v usz f4 f8 : Nat) (i1 i2 i4 i8v isz : Int) (b : Bool)
    (h1 : u1 < 2 ^ 8) (h2 : u2 < 2 ^ 16) (h4 : u4 < 2 ^ 32) (h8 : u8v < 2 ^ 64)
    (hsz : usz < 2 ^ 64) (hf4 : f4 < 2 ^ 32) (hf8 : f8 < 2 ^ 64)
    (g1a : -(2 ^ 7) ≤ i1) (g1b : i1 < 2 ^ 7)
    (g2a : -(2 ^ 15) ≤ i2) (g2b : i2 < 2 ^ 15)
    (g4a : -(2 ^ 31) ≤ i4) (g4b : i4 < 2 ^ 31)
    (g8a : -(2 ^ 63) ≤ i8v) (g8b : i8v < 2 ^ 63)
    (gsza : -(2 ^ 63) ≤ isz) (gszb : isz < 2 ^ 63) :
    ((BinaryWriter.new_vec (List.replicate 1 0) e).write_u8 u1
        = some (1, ⟨⟨encodeNat e 1 u1, 1⟩, e⟩)
      ∧ (BinaryReader.new_vec (encodeNat e 1 u1) e).read_u8
        = Except.ok (u1, ⟨⟨encodeNat e 1 u1, 1⟩, e⟩))
    ∧ ((BinaryWriter.new_vec (List.replicate 2 0) e).write_u16 u2
        = some (2, ⟨⟨encodeNat e 2 u2, 2⟩, e⟩)
      ∧ (BinaryReader.new_vec (encodeNat e 2 u2) e).read_u16
        = Except.ok (u2, ⟨⟨encodeNat e 2 u2, 2⟩, e⟩))
    ∧ ((BinaryWriter.new_vec (List.replicate 4 0) e).write_u32 u4
        = some (4, ⟨⟨encodeNat e 4 u4, 4⟩, e⟩)
      ∧ (BinaryReader.new_vec (encodeNat e 4 u4) e).read_u32
        = Except.ok (u4, ⟨⟨encodeNat e 4 u4, 4⟩, e⟩))
    ∧ ((BinaryWriter.new_vec (List.replicate 8 0) e).write_u64 u8v
        = some (8, ⟨⟨encodeNat e 8 u8v, 8⟩, e⟩)
      ∧ (BinaryReader.new_vec (encodeNat e 8 u8v) e).read_u64
        = Except.ok (u8v, ⟨⟨encodeNat e 8 u8v, 8⟩, e⟩))
    ∧ ((BinaryWriter.new_vec (List.replicate 8 0) e).write_usize usz
        = some (8, ⟨⟨encodeNat e 8 usz, 8⟩, e⟩)
      ∧ (BinaryReader.new_vec (encodeNat e 8 usz) e).read_usize
        = Except.ok (usz, ⟨⟨encodeNat e 8 usz, 8⟩, e⟩))
    ∧ ((BinaryWriter.new_vec (List.replicate 4 0) e).write_f32 f4
        = some (4, ⟨⟨encodeNat e 4 f4, 4⟩, e⟩)
      ∧ (BinaryReader.new_vec (encodeNat e 4 f4) e).read_f32
        = Except.ok (f4, ⟨⟨encodeNat e 4 f4, 4⟩, e⟩))
    ∧ ((BinaryWriter.new_vec (List.replicate 8 0) e).write_f64 f8
        = some (8, ⟨⟨encodeNat e 8 f8, 8⟩, e⟩)
      ∧ (BinaryReader.new_vec (encodeNat e 8 f8) e).read_f64
        = Except.ok (f8, ⟨⟨encodeNat e 8 f8, 8⟩, e⟩))
    ∧ ((BinaryWriter.new_vec (List.replicate 1 0) e).write_i8 i1
        = some (1, ⟨⟨encodeInt e 1 i1, 1⟩, e⟩)
      ∧ (BinaryReader.new_vec (encodeInt e 1 i1) e).read_i8
        = Except.ok (i1, ⟨⟨encodeInt e 1 i1, 1⟩, e⟩))
    ∧ ((BinaryWriter.new_vec (List.replicate 2 0) e).write_i16 i2
        = some (2, ⟨⟨encodeInt e 2 i2, 2⟩, e⟩)
      ∧ (BinaryReader.new_vec (encodeInt e 2 i2) e).read_i16
        = Except.ok (i2, ⟨⟨encodeInt e 2 i2, 2⟩, e⟩))
    ∧ ((BinaryWriter.new_vec (List.replicate 4 0) e).write_i32 i4
        = some (4, ⟨⟨encodeInt e 4 i4, 4⟩, e⟩)
      ∧ (BinaryReader.new_vec (encodeInt e 4 i4) e).read_i32
        = Except.ok (i4, ⟨⟨encodeInt e 4 i4, 4⟩, e⟩))
    ∧ ((BinaryWriter.new_vec (List.replicate 8 0) e).write_i64 i8v
        = some (8, ⟨⟨encodeInt e 8 i8v, 8⟩, e⟩)
      ∧ (BinaryReader.new_vec (encodeInt e 8 i8v) e).read_i64
        = Except.ok (i8v, ⟨⟨encodeInt e 8 i8v, 8⟩, e⟩))
    ∧ ((BinaryWriter.new_vec (List.replicate 8 0) e).write_isize isz
        = some (8, ⟨⟨encodeInt e 8 isz, 8⟩, e⟩)
      ∧ (BinaryReader.new_vec (encodeInt e 8 isz) e).read_isize
        = Except.ok (isz, ⟨⟨encodeInt e 8 isz, 8⟩, e⟩))
    ∧ ((BinaryWriter.new_vec (List.replicate 1 0) e).write_bool b
        = some (1, ⟨⟨encodeNat e 1 (if b then 1 else 0), 1⟩, e⟩)
      ∧ (BinaryReader.new_vec (encodeNat e 1 (if b then 1 else 0)) e).read_bool
        = Except.ok (b, ⟨⟨encodeNat e 1 (if b then 1 else 0), 1⟩, e⟩)) := by
  refine ⟨⟨?_, ?_⟩, ⟨?_, ?_⟩, ⟨?_, ?_⟩, ⟨?_, ?_⟩, ⟨?_, ?_⟩, ⟨?_, ?_⟩, ⟨?_, ?_⟩,
    ⟨?_, ?_⟩, ⟨?_, ?_⟩, ⟨?_, ?_⟩, ⟨?_, ?_⟩, ⟨?_, ?_⟩, ⟨?_, ?_⟩⟩
  · exact BinaryWriter.write_scalar_fresh e 1 u1
  · exact BinaryReader.read_scalar_fresh e 1 u1 (by simpa using h1)
  · exact BinaryWriter.write_scalar_fresh e 2 u2
  · exact BinaryReader.read_scalar_fresh e 2 u2 (by simpa using h2)
  · exact BinaryWriter.write_scalar_fresh e 4 u4
  · exact BinaryReader.read_scalar_fresh e 4 u4 (by simpa using h4)
  · exact BinaryWriter.write_scalar_fresh e 8 u8v
  · exact BinaryReader.read_scalar_fresh e 8 u8v (by simpa using h8)
  · exact BinaryWriter.write_scalar_fresh e 8 usz
  · exact BinaryReader.read_scalar_fresh e 8 usz (by simpa using hsz)
  · exact BinaryWriter.write_scalar_fresh e 4 f4
  · exact BinaryReader.read_scalar_fresh e 4 f4 (by simpa using hf4)
  · exact BinaryWriter.write_scalar_fresh e 8 f8
  · exact BinaryReader.read_scalar_fresh e 8 f8 (by simpa using hf8)
  · exact BinaryWriter.write_signed_fresh e 1 i1
  · exact BinaryReader.read_signed_fresh e 1 (by norm_num) i1
      (by simpa using g1a) (by simpa using g1b)
  · exact BinaryWriter.write_signed_fresh e 2 i2
  · exact BinaryReader.read_signed_fresh e 2 (by norm_num) i2
      (by simpa using g2a) (by simpa using g2b)
  · exact BinaryWriter.write_signed_fresh e 4 i4
  · exact BinaryReader.read_signed_fresh e 4 (by norm_num) i4
      (by simpa using g4a) (by simpa using g4b)
  · exact BinaryWriter.write_signed_fresh e 8 i8v
  · exact BinaryReader.read_signed_fresh e 8 (by norm_num) i8v
      (by simpa using g8a) (by simpa using g8b)
  · exact BinaryWriter.write_signed_fresh e 8 isz
  · exact BinaryReader.read_signed_fresh e 8 (by norm_num) isz
      (by simpa using gsza) (by simpa using gszb)
  · exact BinaryWriter.write_scalar_fresh e 1 (if b then 1 else 0)
  · have h := BinaryReader.read_scalar_fresh e 1 (if b then 1 else 0)
      (by cases b <;> norm_num)
    show BinaryReader.read_bool _ = _
    rw [BinaryReader.read_bool, BinaryReader.read_u8, h]
    cases b <;> simp

/-- Witness for C4 at concrete extreme inputs: `u32` maximum, the `f32` NaN
bit pattern `0x7FC00000`, and the `i32` minimum, all big-endian. -/
theorem C4_scalar_roundtrip_witness :
    (BinaryReader.new_vec (encodeNat Endian.big 4 4294967295) Endian.big).read_u32
      = Except.ok (4294967295, ⟨⟨encodeNat Endian.big 4 4294967295, 4⟩, Endian.big⟩)
    ∧ (BinaryReader.new_vec (encodeNat Endian.big 4 2139095040) Endian.big).read_f32
      = Except.ok (2139095040, ⟨⟨encodeNat Endian.big 4 2139095040, 4⟩, Endian.big⟩)
    ∧ (BinaryReader.new_vec (encodeInt Endian.big 4 (-2147483648)) Endian.big).read_i32
      = Except.ok (-2147483648,
          ⟨⟨encodeInt Endian.big 4 (-2147483648), 4⟩, Endian.big⟩) := by
  have h := C4_scalar_roundtrip Endian.big 255 65535 4294967295 18446744073709551615
    0 2139095040 9218868437227405312 (-128) (-32768) (-2147483648)
    9223372036854775807 (-1) true
    (by decide) (by decide) (by decide) (by decide) (by decide) (by decide)
    (by decide) (by decide) (by decide) (by decide) (by decide) (by decide)
    (by decide) (by decide) (by decide) (by decide) (by decide)
  exact ⟨h.2.2.1.2, h.2.2.2.2.2.1.2, h.2.2.2.2.2.2.2.2.2.1.2⟩

/-- C5 (evaluation of the defect): the string round trip is impossible in
this code. Writing "ab" panics both on an empty Vec (the 8-byte length
write hits a 0-byte backing) and on an 8-byte backing (the 2 content bytes
hit the now 8-byte backing); an 8-byte string is the only shape whose
`write_string` succeeds, but its content write overwrites the length 8
it just wrote, so the subsequent `read_string` reads the content bytes as a
huge length and fails with `ReadPastEof` instead of returning the string;
the `wasm32` (32-bit length) configuration fails the same way. -/
theorem C5_write_string_broken :
    (BinaryWriter.new_vec [] Endian.little).write_string [97, 98] = none
    ∧ (BinaryWriter.new_vec [] Endian.little).write_string [] = none
    ∧ (BinaryWriter.new_vec (List.replicate 8 0) Endian.little).write_string
        [97, 98] = none
    ∧ (BinaryWriter.new_vec (List.replicate 8 0) Endian.little).write_string
        [97, 97, 97, 97, 97, 97, 97, 97]
      = some (8, ⟨⟨[97, 97, 97, 97, 97, 97, 97, 97], 16⟩, Endian.little⟩)
    ∧ (BinaryReader.new_vec [97, 97, 97, 97, 97, 97, 97, 97] Endian.little).read_string
      = Except.error BinaryError.readPastEof
    ∧ (BinaryWriter.new_vec [] Endian.little).write_string_w32 [97, 98] = none := by
  refine ⟨rfl, rfl, rfl, rfl, rfl, rfl⟩

/-- C7: `read_big_string` consumes a 4-byte signed length (current
endianness) and then that many UTF-8 bytes, leaving the cursor at
`4 + length`; `write_big_string` emits only the raw bytes (no length
anywhere in the resulting backing), after an optional seek — an asymmetric
pair of framings. -/
theorem C7_big_string_asymmetry (e : Endian) (payload : List Nat)
    (w : BinaryWriter) (data : List Nat) (p : Nat)
    (hutf : utf8Valid payload = true) (hlen : payload.length < 2 ^ 31)
    (hw : data.length = w.stream.buffer.length) :
    (BinaryReader.new_vec (encodeNat e 4 payload.length ++ payload) e).read_big_string
      = Except.ok (payload,
          ⟨⟨encodeNat e 4 payload.length ++ payload, 4 + payload.length⟩, e⟩)
    ∧ w.write_big_string data (some p)
      = some (data.length, ⟨⟨data, p + data.length⟩, w.endian⟩)
    ∧ w.write_big_string data none
      = some (data.length, ⟨⟨data, w.stream.position + data.length⟩, w.endian⟩) := by
  refine ⟨?_, ?_, ?_⟩
  · have h4 : (encodeNat e 4 payload.length).length = 4 := encodeNat_length e 4 _
    have hbuf : (encodeNat e 4 payload.length ++ payload).length
        = 4 + payload.length := by simp [h4]
    have hr1 : MemoryStream.read ⟨encodeNat e 4 payload.length ++ payload, 0⟩ 4
        = (Except.ok (encodeNat e 4 payload.length),
           ⟨encodeNat e 4 payload.length ++ payload, 4⟩) := by
      rw [MemoryStream.read_le _ 0 4 (by omega)]
      simp [List.take_left' h4]
    have hdec : decodeNat e (encodeNat e 4 payload.length) = payload.length :=
      decodeNat_encodeNat_of_lt e 4 _ (by omega)
    have hint : natAsInt 4 payload.length = (payload.length : Int) := by
      unfold natAsInt
      rw [if_pos (by omega)]
    have hcast : intAsNat 8 ((payload.length : Int)) = payload.length :=
      intAsNat_ofNat 8 payload.length (by omega)
    have hr2 : MemoryStream.read ⟨encodeNat e 4 payload.length ++ payload, 4⟩
        payload.length
        = (Except.ok payload,
           ⟨encodeNat e 4 payload.length ++ payload, 4 + payload.length⟩) := by
      rw [MemoryStream.read_le _ 4 payload.length (by omega)]
      simp [List.drop_left' h4]
    simp only [BinaryReader.read_big_string, BinaryReader.read_i32,
      BinaryReader.read_signed, BinaryReader.new_vec, MemoryStream.new_vec,
      BinaryReader.read_bytes, hr1, hdec, hint, hcast, hr2, hutf, if_true]
  · obtain ⟨⟨buf, pos⟩, we⟩ := w
    have hw9 : data.length = buf.length := hw
    simp [BinaryWriter.write_big_string, MemoryStream.seek, MemoryStream.write, hw9]
  · obtain ⟨⟨buf, pos⟩, we⟩ := w
    have hw9 : data.length = buf.length := hw
    simp [BinaryWriter.write_big_string, MemoryStream.write, hw9]

/-- Witness for C7 at concrete inputs: reading the little-endian framing of
"hi", and a raw (no length emitted) positioned write. -/
theorem C7_big_string_asymmetry_witness :
    (BinaryReader.new_vec (encodeNat Endian.little 4 2 ++ [104, 105])
        Endian.little).read_big_string
      = Except.ok ([104, 105],
          ⟨⟨encodeNat Endian.little 4 2 ++ [104, 105], 6⟩, Endian.little⟩)
    ∧ (BinaryWriter.new_vec [0, 0] Endian.little).write_big_string [3, 4] (some 5)
      = some (2, ⟨⟨[3, 4], 7⟩, Endian.little⟩) := by
  have h := C7_big_string_asymmetry Endian.little [104, 105]
    (BinaryWriter.new_vec [0, 0] Endian.little) [3, 4] 5
    (by decide) (by decide) (by decide)
  exact ⟨by simpa using h.1, by simpa using h.2.1⟩

/-- C8: `read_char` decodes a `u32` per the current endianness and converts
it with `char::from_u32`: when the value is not a Unicode scalar value (too
large or a surrogate) it fails with `InvalidChar`, otherwise it returns the
character with that scalar value. -/
theorem C8_read_char_validity (e : Endian) (n : Nat) (hn : n < 2 ^ 32) :
    (0x110000 ≤ n ∨ (0xD800 ≤ n ∧ n ≤ 0xDFFF) →
      (BinaryReader.new_vec (encodeNat e 4 n) e).read_char
        = Except.error BinaryError.invalidChar)
    ∧ (n < 0x110000 → ¬(0xD800 ≤ n ∧ n ≤ 0xDFFF) →
      (BinaryReader.new_vec (encodeNat e 4 n) e).read_char
        = Except.ok (n, ⟨⟨encodeNat e 4 n, 4⟩, e⟩)) := by
  have h := BinaryReader.read_scalar_fresh e 4 n (by simpa using hn)
  constructor
  · intro hv
    have hc : char_from_u32 n = none := by
      unfold char_from_u32
      rw [if_pos hv]
    simp [BinaryReader.read_char, BinaryReader.read_u32, h, hc]
  · intro hlt hsur
    have hc : char_from_u32 n = some n := by
      unfold char_from_u32
      rw [if_neg (by omega)]
    simp [BinaryReader.read_char, BinaryReader.read_u32, h, hc]

/-- Witness for C8: the 32-bit value `0xFFFFFFFF` decodes to `InvalidChar`. -/
theorem C8_read_char_validity_witness :
    (BinaryReader.new_vec (encodeNat Endian.little 4 4294967295)
        Endian.little).read_char
      = Except.error BinaryError.invalidChar :=
  (C8_read_char_validity Endian.little 4294967295 (by decide)).1 (by decide)

/-- C9: a successful `read_bytes_at n p` seeks to `p`, reads the `n` bytes
there and leaves the cursor at `p + n` (not restored); `write_bytes_at`
likewise leaves the cursor at `p + data.length` after the written region,
not restored to its prior value. -/
theorem C9_bytes_at_cursor (r : BinaryReader) (n p : Nat) (w : BinaryWriter)
    (data : List Nat) (q : Nat)
    (hr : p + n ≤ r.stream.buffer.length)
    (hw : data.length = w.stream.buffer.length) :
    r.read_bytes_at n p
      = Except.ok ((r.stream.buffer.drop p).take n,
          ⟨⟨r.stream.buffer, p + n⟩, r.endian⟩)
    ∧ w.write_bytes_at data q
      = some (data.length, ⟨⟨data, q + data.length⟩, w.endian⟩) := by
  constructor
  · obtain ⟨⟨buf, pos⟩, e⟩ := r
    have hr9 : p + n ≤ buf.length := hr
    simp [BinaryReader.read_bytes_at, MemoryStream.seek,
      MemoryStream.read_le buf p n hr9]
  · obtain ⟨⟨buf, pos⟩, we⟩ := w
    have hw9 : data.length = buf.length := hw
    simp [BinaryWriter.write_bytes_at, MemoryStream.seek, MemoryStream.write, hw9]

/-- Witness for C9 at concrete inputs. -/
theorem C9_bytes_at_cursor_witness :
    (BinaryReader.new_vec [10, 11, 12, 13] Endian.little).read_bytes_at 2 1
      = Except.ok ([11, 12], ⟨⟨[10, 11, 12, 13], 3⟩, Endian.little⟩)
    ∧ (BinaryWriter.new_vec [0, 0, 0] Endian.little).write_bytes_at [5, 6, 7] 2
      = some (3, ⟨⟨[5, 6, 7], 5⟩, Endian.little⟩) := by
  have h := C9_bytes_at_cursor (BinaryReader.new_vec [10, 11, 12, 13] Endian.little)
    2 1 (BinaryWriter.new_vec [0, 0, 0] Endian.little) [5, 6, 7] 2
    (by decide) (by decide)
  exact ⟨by simpa using h.1, by simpa using h.2⟩

end BinaryManager
